import Mathlib

/-!
Shallow embedding of `src/engine.py` (particle-system simulator).

Scalars are modelled as rationals; a numpy array of shape `(n, d)` becomes a
function `Fin n → Fin d → ℚ`.  The external collaborators are modelled as
explicit inputs: the noise source (`Randomizer.gen_epsilon_matrix`, whose
module is not part of `src/`) becomes noise matrices supplied per call site,
and the Euclidean-distance computations (`scipy.spatial.distance.pdist` and
`cdist`, an external library) become distance-matrix inputs, so every theorem
quantifies over all possible distance matrices and noise draws — a superset
of the behaviours of the concrete program.
-/

namespace PSim

/-- `Config` from engine.py lines 42-56: species-wide scalar parameters plus
the per-individual `(n, 3)` urgency-weight matrix `uw`. -/
structure Config (n : ℕ) where
  v_max : ℚ
  v_decay : ℚ
  a_max : ℚ
  d_max : ℚ
  u_max : ℚ
  u1_p : ℚ
  u2_p : ℚ
  u2_dopt : ℚ
  u3_p : ℚ
  u3_dmax : ℚ
  uw : Fin n → Fin 3 → ℚ

/-- `State` from engine.py lines 30-39: particle position/velocity/acceleration
matrices of shape `(n, d)` and predator matrices of shape `(m, d)`. -/
structure SimState (n m d : ℕ) where
  p : Fin n → Fin d → ℚ
  v : Fin n → Fin d → ℚ
  a : Fin n → Fin d → ℚ
  pred_p : Fin m → Fin d → ℚ
  pred_v : Fin m → Fin d → ℚ
  pred_a : Fin m → Fin d → ℚ

instance {n m d : ℕ} : Inhabited (SimState n m d) :=
  ⟨{ p := fun _ _ => 0, v := fun _ _ => 0, a := fun _ _ => 0,
     pred_p := fun _ _ => 0, pred_v := fun _ _ => 0, pred_a := fun _ _ => 0 }⟩

/-- The triple `(u1, u2, u3)` of raw urgency matrices returned by
`_step_particles` (the numpy array of shape `(3, n, d)`, line 160). -/
abbrev Urg3 (n d : ℕ) := (Fin n → Fin d → ℚ) × (Fin n → Fin d → ℚ) × (Fin n → Fin d → ℚ)

/-- The all-zero urgency snapshot `np.zeros((3, n, d))` recorded for the
initial state (engine.py lines 115-117). -/
def zeroUrg (n d : ℕ) : Urg3 n d := (fun _ _ => 0, fun _ _ => 0, fun _ _ => 0)

/-- The error raised by `Engine.__init__` (engine.py lines 85-92); it reports
all four shapes in its message. -/
structure ShapeError where
  pShape : ℕ × ℕ
  vShape : ℕ × ℕ
  aShape : ℕ × ℕ
  uwShape : ℕ × ℕ
deriving DecidableEq

/-- The shape validation of `Engine.__init__` (engine.py lines 79-92): raise
iff `p.shape != v.shape or p.shape != a.shape or uw.shape != (p.shape[0], 3)`;
no other validation is performed.  Shapes of the 2-D arrays are modelled as
pairs of naturals. -/
def engineInit (pS vS aS uwS : ℕ × ℕ) : Except ShapeError Unit :=
  if pS ≠ vS ∨ pS ≠ aS ∨ uwS ≠ (pS.1, 3) then
    Except.error ⟨pS, vS, aS, uwS⟩
  else
    Except.ok ()

/-- The urgency-1 weight matrix (engine.py lines 177-188):
`in_range = distances > 0 and distances <= d_max`; `weights` is zero outside
the mask, and `1 / count_nonzero(in_range, axis=1)` on it (the division is
performed only where the mask holds). -/
def u1Weights {n : ℕ} (d_max : ℚ) (distances : Fin n → Fin n → ℚ) :
    Fin n → Fin n → ℚ := fun i j =>
  if 0 < distances i j ∧ distances i j ≤ d_max then
    1 / ((Finset.univ.filter (fun k => 0 < distances i k ∧ distances i k ≤ d_max)).card : ℚ)
  else 0

/-- `Engine._calculate_urgency1` (engine.py lines 171-197): barycenters are
`weights @ p`; the returned field is
`(baricenters - p) * eps * u1_p * uw[:, 0]`. -/
def calculateUrgency1 {n d : ℕ} (cfg : Config n) (p : Fin n → Fin d → ℚ)
    (distances : Fin n → Fin n → ℚ) (eps : Fin n → Fin d → ℚ) :
    Fin n → Fin d → ℚ :=
  let weights := u1Weights cfg.d_max distances
  let baricenters := fun i x => ∑ j, weights i j * p j x
  let u1_vector := fun i x => (baricenters i x - p i x) * eps i x
  fun i x => u1_vector i x * cfg.u1_p * cfg.uw i 0

/-- The urgency-2 weight matrix (engine.py lines 213-236):
zero outside the mask `0 < distance <= u2_dopt`, and
`(u2_dopt - distance) / (u2_dopt * distance)` on it. -/
def u2Weights {n : ℕ} (u2_dopt : ℚ) (distances : Fin n → Fin n → ℚ) :
    Fin n → Fin n → ℚ := fun i j =>
  if 0 < distances i j ∧ distances i j ≤ u2_dopt then
    (u2_dopt - distances i j) / (u2_dopt * distances i j)
  else 0

/-- `Engine._calculate_urgency2` (engine.py lines 199-272): the batched
matrix product `weights.reshape((n,1,n)) @ (p[:,newaxis] - p)` reshaped to
`(n, d)` is, entrywise, `∑ j, weights i j * (p i x - p j x)`; the result is
multiplied by `eps * u2_p * uw[:, 1]`. -/
def calculateUrgency2 {n d : ℕ} (cfg : Config n) (p : Fin n → Fin d → ℚ)
    (distances : Fin n → Fin n → ℚ) (eps : Fin n → Fin d → ℚ) :
    Fin n → Fin d → ℚ :=
  let weights := u2Weights cfg.u2_dopt distances
  let u2_vector := fun i x => (∑ j, weights i j * (p i x - p j x)) * eps i x
  fun i x => u2_vector i x * cfg.u2_p * cfg.uw i 1

/-- The urgency-3 weight matrix (engine.py lines 303-313): zero outside the
mask `0 < distance <= u3_dmax`, and
`(u3_dmax - distance) / (u3_dmax * distance)` on it. -/
def u3Weights {n m : ℕ} (u3_dmax : ℚ) (dpred : Fin n → Fin m → ℚ) :
    Fin n → Fin m → ℚ := fun i k =>
  if 0 < dpred i k ∧ dpred i k ≤ u3_dmax then
    (u3_dmax - dpred i k) / (u3_dmax * dpred i k)
  else 0

/-- `Engine._calculate_urgency3` (engine.py lines 274-333).  The source
computes `distances_from_predators` with `scipy.spatial.distance.cdist`
(external library); it is modelled as the input `dpred`.  The batched matrix
product over `(p[:,newaxis] - pred_p)` is, entrywise,
`∑ k, weights i k * (p i x - pred_p k x)`; the result is multiplied by
`eps * u3_p * uw[:, 2]`. -/
def calculateUrgency3 {n m d : ℕ} (cfg : Config n) (p : Fin n → Fin d → ℚ)
    (pred_p : Fin m → Fin d → ℚ) (dpred : Fin n → Fin m → ℚ)
    (eps : Fin n → Fin d → ℚ) : Fin n → Fin d → ℚ :=
  let weights := u3Weights cfg.u3_dmax dpred
  let u3_vector := fun i x => (∑ k, weights i k * (p i x - pred_p k x)) * eps i x
  fun i x => u3_vector i x * cfg.u3_p * cfg.uw i 2

/-- Modelled from the spec: `Utils.inplace_clip_by_abs` (file `util.py` is not
under `src/`).  The spec's Clipper contract clamps every element of an array
to `[-bound, bound]`, component-wise. -/
def clipByAbs (x bound : ℚ) : ℚ := min bound (max (-bound) x)

/-- `Engine._step_particles` (engine.py lines 140-160).  `e1 e2 e3 ea` are the
four fresh noise draws of the step (three inside the urgency computations,
one applied to the clipped acceleration); `dists`/`dpred` are the distance
matrices (computed in the source by scipy `pdist`/`cdist`); `df` stands for
the real-valued factor `math.pow(v_decay, timestep)` (a float power, supplied
as an input since no claim depends on its value).  Returns the new state and
the raw urgency triple `(u1, u2, u3)`. -/
def stepParticles {n m d : ℕ} (cfg : Config n) (ts df : ℚ)
    (dists : Fin n → Fin n → ℚ) (dpred : Fin n → Fin m → ℚ)
    (e1 e2 e3 ea : Fin n → Fin d → ℚ) (s : SimState n m d) :
    SimState n m d × Urg3 n d :=
  let u1 := calculateUrgency1 cfg s.p dists e1
  let u2 := calculateUrgency2 cfg s.p dists e2
  let u3 := calculateUrgency3 cfg s.p s.pred_p dpred e3
  let u_tot := fun i x => u1 i x + u2 i x + u3 i x
  let aScaled := fun i x => u_tot i x / cfg.u_max * cfg.a_max
  let aClipped := fun i x => clipByAbs (aScaled i x) cfg.a_max
  let aNoisy := fun i x => aClipped i x * ea i x
  let vDecayed := fun i x => s.v i x * df
  let vStepped := fun i x => vDecayed i x + aNoisy i x * ts
  let vClipped := fun i x => clipByAbs (vStepped i x) cfg.v_max
  let pNew := fun i x => s.p i x + vClipped i x * ts
  ({ s with p := pNew, v := vClipped, a := aNoisy }, (u1, u2, u3))

/-- `Engine._step_predators` (engine.py lines 162-169): `pred_a` is multiplied
in place by the fresh noise matrix `ep`, then `pred_v += pred_a * timestep`
and `pred_p += pred_v * timestep`; no decay and no clipping. -/
def stepPredators {n m d : ℕ} (ts : ℚ) (ep : Fin m → Fin d → ℚ)
    (s : SimState n m d) : SimState n m d :=
  let aNew := fun k x => s.pred_a k x * ep k x
  let vNew := fun k x => s.pred_v k x + aNew k x * ts
  let pNew := fun k x => s.pred_p k x + vNew k x * ts
  { s with pred_a := aNew, pred_v := vNew, pred_p := pNew }

/-- The per-iteration external inputs of one loop iteration of `Engine.run`:
the two distance matrices (scipy) and the five fresh noise draws (one per
`gen_epsilon_matrix` call site: three urgencies, the particle acceleration,
and the predator acceleration). -/
structure StepInputs (n m d : ℕ) where
  dists : Fin n → Fin n → ℚ
  dpred : Fin n → Fin m → ℚ
  e1 : Fin n → Fin d → ℚ
  e2 : Fin n → Fin d → ℚ
  e3 : Fin n → Fin d → ℚ
  ea : Fin n → Fin d → ℚ
  ep : Fin m → Fin d → ℚ

/-- One iteration of the loop body of `Engine.run` (engine.py lines 125-126):
`_step_particles` then `_step_predators`, returning the stepped state and the
step's raw urgency triple. -/
def stepIteration {n m d : ℕ} (cfg : Config n) (ts df : ℚ)
    (inp : StepInputs n m d) (s : SimState n m d) :
    SimState n m d × Urg3 n d :=
  let r := stepParticles cfg ts df inp.dists inp.dpred inp.e1 inp.e2 inp.e3 inp.ea s
  (stepPredators ts inp.ep r.1, r.2)

/-- An identity noise draw: every factor of every matrix of the step is
exactly 1 (the mocked noise source of the spec's round-trip property). -/
def identityNoise {n m d : ℕ} (inp : StepInputs n m d) : Prop :=
  inp.e1 = (fun _ _ => 1) ∧ inp.e2 = (fun _ _ => 1) ∧ inp.e3 = (fun _ _ => 1) ∧
  inp.ea = (fun _ _ => 1) ∧ inp.ep = (fun _ _ => 1)

/-- The loop of `Engine.run` (engine.py lines 119-133), iterating `rem` more
times starting at iteration index `k` (the Python loop runs `k = 1 ..
iterations`).  Returns the list of recorded `(state snapshot, urgency)` pairs
— a pair is recorded when `iteration > skip_initial_states - 1`, i.e. (in
truncated ℕ subtraction, equivalent for `k ≥ 1`) `skip - 1 < k` — together
with the final mutated state. -/
def runSteps {n m d : ℕ} (cfg : Config n) (ts df : ℚ)
    (inp : ℕ → StepInputs n m d) (skip : ℕ) :
    ℕ → ℕ → SimState n m d → List (SimState n m d × Urg3 n d) × SimState n m d
  | _, 0, s => ([], s)
  | k, rem + 1, s =>
    let su := stepIteration cfg ts df (inp k) s
    let rest := runSteps cfg ts df inp skip (k + 1) rem su.1
    (if skip - 1 < k then su :: rest.1 else rest.1, rest.2)

/-- `EngineRunResult` (engine.py lines 59-66): the recorded state snapshots,
and the recorded urgency snapshots when `return_urgency_vectors` was set. -/
structure EngineRunResult (n m d : ℕ) where
  states : List (SimState n m d)
  urgencies : Option (List (Urg3 n d))

/-- `Engine.run` (engine.py lines 94-138): when `skip_initial_states = 0` the
pristine initial state and a zero urgency snapshot are recorded up front;
then the loop body runs for iterations `1 .. iterations`; `urgencies` is
returned only when `return_urgency_vectors` is set. -/
def runEngine {n m d : ℕ} (cfg : Config n) (ts df : ℚ) (iterations skip : ℕ)
    (retUrg : Bool) (inp : ℕ → StepInputs n m d) (s0 : SimState n m d) :
    EngineRunResult n m d :=
  let recorded := (runSteps cfg ts df inp skip 1 iterations s0).1
  let entries := (if 0 < skip then [] else [(s0, zeroUrg n d)]) ++ recorded
  { states := entries.map Prod.fst
    urgencies := if retUrg then some (entries.map Prod.snd) else none }

/-- The engine's (mutated-in-place) state when `run` returns: the second
component of the loop. -/
def finalState {n m d : ℕ} (cfg : Config n) (ts df : ℚ)
    (inp : ℕ → StepInputs n m d) (skip iterations : ℕ) (s0 : SimState n m d) :
    SimState n m d :=
  (runSteps cfg ts df inp skip 1 iterations s0).2

/-- The simulation state after exactly `k` iterations of the loop body
(particles then predators), independent of any recording logic. -/
def stateAt {n m d : ℕ} (cfg : Config n) (ts df : ℚ)
    (inp : ℕ → StepInputs n m d) (s0 : SimState n m d) : ℕ → SimState n m d
  | 0 => s0
  | k + 1 => (stepIteration cfg ts df (inp (k + 1)) (stateAt cfg ts df inp s0 k)).1

/-- The pre-noise acceleration of a particle step (engine.py lines 150-152):
the summed urgencies rescaled by `u_max → a_max` and clipped, before the
epsilon matrix is applied. -/
def preNoiseAccel {n d : ℕ} (cfg : Config n) (u : Urg3 n d) :
    Fin n → Fin d → ℚ := fun i x =>
  clipByAbs ((u.1 i x + u.2.1 i x + u.2.2 i x) / cfg.u_max * cfg.a_max) cfg.a_max

/-! Concrete fixtures used by witnesses and counterexamples: a one-particle,
one-predator, one-dimensional system. -/

/-- A concrete configuration with every scalar parameter 1 and all urgency
weights 1. -/
def cfg1 : Config 1 :=
  { v_max := 1, v_decay := 1, a_max := 1, d_max := 1, u_max := 1,
    u1_p := 1, u2_p := 1, u2_dopt := 1, u3_p := 1, u3_dmax := 1,
    uw := fun _ _ => 1 }

/-- The all-zero `1 × 1` matrix. -/
def zeros1 : Fin 1 → Fin 1 → ℚ := fun _ _ => 0

/-- The all-one `1 × 1` matrix. -/
def ones1 : Fin 1 → Fin 1 → ℚ := fun _ _ => 1

/-- The all-two `1 × 1` matrix (a non-identity noise draw). -/
def twos1 : Fin 1 → Fin 1 → ℚ := fun _ _ => 2

/-- A concrete initial state: everything at the origin, predator baseline
acceleration 1. -/
def zeroState1 : SimState 1 1 1 :=
  { p := zeros1, v := zeros1, a := zeros1,
    pred_p := zeros1, pred_v := zeros1, pred_a := ones1 }

/-- Identity step inputs: zero distances, all noise factors exactly 1. -/
def idInp1 : StepInputs 1 1 1 :=
  { dists := zeros1, dpred := zeros1,
    e1 := ones1, e2 := ones1, e3 := ones1, ea := ones1, ep := ones1 }

/-- Step inputs whose predator noise factor is 2 (all other factors 1). -/
def predInp1 : StepInputs 1 1 1 :=
  { dists := zeros1, dpred := zeros1,
    e1 := ones1, e2 := ones1, e3 := ones1, ea := ones1, ep := twos1 }

/-! Helper lemmas shared by the claim theorems. -/

/-- The clipper really clamps: for a non-negative bound the clipped value has
absolute value at most the bound. -/
theorem abs_clipByAbs_le (x b : ℚ) (hb : 0 ≤ b) : |clipByAbs x b| ≤ b := by
  rw [abs_le]
  constructor
  · exact le_min (neg_le_self hb) (le_max_left _ _)
  · exact min_le_left _ _

/-- Unfolding one iteration of `stateAt`. -/
theorem stateAt_succ {n m d : ℕ} (cfg : Config n) (ts df : ℚ)
    (inp : ℕ → StepInputs n m d) (s0 : SimState n m d) (k : ℕ) :
    stateAt cfg ts df inp s0 (k + 1) =
      (stepIteration cfg ts df (inp (k + 1)) (stateAt cfg ts df inp s0 k)).1 := by
  simp only [stateAt]

/-- The predator acceleration stored after one loop iteration: the previous
one multiplied element-wise by the iteration's predator noise draw
(`pred_a *= eps`, engine.py line 165); `_step_particles` leaves `pred_a`
untouched. -/
theorem stepIteration_fst_pred_a {n m d : ℕ} (cfg : Config n) (ts df : ℚ)
    (inp : StepInputs n m d) (s : SimState n m d) :
    (stepIteration cfg ts df inp s).1.pred_a = fun k x =>
      s.pred_a k x * inp.ep k x := rfl

/-- The run loop does nothing with zero iterations left. -/
theorem runSteps_zero {n m d : ℕ} (cfg : Config n) (ts df : ℚ)
    (inp : ℕ → StepInputs n m d) (skip k : ℕ) (s : SimState n m d) :
    runSteps cfg ts df inp skip k 0 s = ([], s) := by
  simp only [runSteps]

/-- Unfolding one iteration of the run loop. -/
theorem runSteps_succ {n m d : ℕ} (cfg : Config n) (ts df : ℚ)
    (inp : ℕ → StepInputs n m d) (skip k rem : ℕ) (s : SimState n m d) :
    runSteps cfg ts df inp skip k (rem + 1) s =
      ((if skip - 1 < k
        then stepIteration cfg ts df (inp k) s ::
          (runSteps cfg ts df inp skip (k + 1) rem
            (stepIteration cfg ts df (inp k) s).1).1
        else (runSteps cfg ts df inp skip (k + 1) rem
          (stepIteration cfg ts df (inp k) s).1).1),
       (runSteps cfg ts df inp skip (k + 1) rem
         (stepIteration cfg ts df (inp k) s).1).2) := by
  simp only [runSteps]

/-- Length of the recorded list of the run loop: starting at iteration `k ≥ 1`
with `rem` iterations left, exactly `k + rem - max k skip` pairs are
recorded. -/
theorem runSteps_length {n m d : ℕ} (cfg : Config n) (ts df : ℚ)
    (inp : ℕ → StepInputs n m d) (skip : ℕ) :
    ∀ (rem k : ℕ) (s : SimState n m d), 1 ≤ k →
      ((runSteps cfg ts df inp skip k rem s).1).length = k + rem - max k skip := by
  intro rem
  induction rem with
  | zero =>
    intro k s hk
    rw [runSteps_zero]
    rcases le_total k skip with h | h
    · rw [Nat.max_eq_right h]
      simp
      omega
    · rw [Nat.max_eq_left h]
      simp
  | succ rem ih =>
    intro k s hk
    rw [runSteps_succ]
    by_cases hc : skip - 1 < k
    · have hsk : skip ≤ k := by omega
      have ihk := ih (k + 1) (stepIteration cfg ts df (inp k) s).1 (by omega)
      rw [if_pos hc]
      show ((stepIteration cfg ts df (inp k) s ::
        (runSteps cfg ts df inp skip (k + 1) rem
          (stepIteration cfg ts df (inp k) s).1).1)).length = _
      rw [List.length_cons, ihk, Nat.max_eq_left (by omega : skip ≤ k + 1),
        Nat.max_eq_left hsk]
      omega
    · have hsk : k < skip := by omega
      have ihk := ih (k + 1) (stepIteration cfg ts df (inp k) s).1 (by omega)
      rw [if_neg hc]
      show ((runSteps cfg ts df inp skip (k + 1) rem
        (stepIteration cfg ts df (inp k) s).1).1).length = _
      rw [ihk, Nat.max_eq_right (by omega : k + 1 ≤ skip),
        Nat.max_eq_right (le_of_lt hsk)]
      omega

/-- Peeling the last iteration off the run loop's final state. -/
theorem runSteps_snd_succ {n m d : ℕ} (cfg : Config n) (ts df : ℚ)
    (inp : ℕ → StepInputs n m d) (skip : ℕ) :
    ∀ (rem k : ℕ) (s : SimState n m d),
      (runSteps cfg ts df inp skip k (rem + 1) s).2 =
        (stepIteration cfg ts df (inp (k + rem))
          ((runSteps cfg ts df inp skip k rem s).2)).1 := by
  intro rem
  induction rem with
  | zero =>
    intro k s
    rw [runSteps_succ]
    show (runSteps cfg ts df inp skip (k + 1) 0
      (stepIteration cfg ts df (inp k) s).1).2 = _
    rw [runSteps_zero, runSteps_zero]
    simp
  | succ rem ih =>
    intro k s
    have h1 : (runSteps cfg ts df inp skip k (rem + 1 + 1) s).2 =
        (runSteps cfg ts df inp skip (k + 1) (rem + 1)
          (stepIteration cfg ts df (inp k) s).1).2 := by
      rw [runSteps_succ]
    have h2 : (runSteps cfg ts df inp skip k (rem + 1) s).2 =
        (runSteps cfg ts df inp skip (k + 1) rem
          (stepIteration cfg ts df (inp k) s).1).2 := by
      rw [runSteps_succ]
    rw [h1, ih (k + 1) (stepIteration cfg ts df (inp k) s).1, h2]
    have h3 : k + 1 + rem = k + (rem + 1) := by omega
    rw [h3]

/-- The run loop's final state is the pure `iterations`-fold iterate of the
step body: the recording logic never changes how many steps are taken. -/
theorem finalState_eq_stateAt {n m d : ℕ} (cfg : Config n) (ts df : ℚ)
    (inp : ℕ → StepInputs n m d) (skip : ℕ) (s0 : SimState n m d) :
    ∀ iterations,
      finalState cfg ts df inp skip iterations s0 =
        stateAt cfg ts df inp s0 iterations := by
  intro iterations
  induction iterations with
  | zero =>
    show (runSteps cfg ts df inp skip 1 0 s0).2 = _
    rw [runSteps_zero]
    rfl
  | succ it ih =>
    show (runSteps cfg ts df inp skip 1 (it + 1) s0).2 = _
    rw [runSteps_snd_succ cfg ts df inp skip it 1 s0]
    show (stepIteration cfg ts df (inp (1 + it))
      (finalState cfg ts df inp skip it s0)).1 = _
    rw [ih, stateAt_succ]
    have h1 : 1 + it = it + 1 := by omega
    rw [h1]

/-- Every pair recorded by the run loop under identity noise satisfies the
round-trip relation: its stored acceleration is the clipped rescaled sum of
its stored raw urgencies. -/
theorem runSteps_accel_rel {n m d : ℕ} (cfg : Config n) (ts df : ℚ)
    (inp : ℕ → StepInputs n m d) (skip : ℕ)
    (hid : ∀ j, identityNoise (inp j)) :
    ∀ (rem k : ℕ) (s : SimState n m d) (pr : SimState n m d × Urg3 n d),
      pr ∈ (runSteps cfg ts df inp skip k rem s).1 →
      pr.1.a = preNoiseAccel cfg pr.2 := by
  have hstep : ∀ (kk : ℕ) (ss : SimState n m d),
      (stepIteration cfg ts df (inp kk) ss).1.a =
        preNoiseAccel cfg (stepIteration cfg ts df (inp kk) ss).2 := by
    intro kk ss
    have hkey : (stepIteration cfg ts df (inp kk) ss).1.a = fun i x =>
        preNoiseAccel cfg (stepIteration cfg ts df (inp kk) ss).2 i x *
          (inp kk).ea i x := rfl
    rw [hkey, (hid kk).2.2.2.1]
    funext i x
    simp only [mul_one]
  intro rem
  induction rem with
  | zero =>
    intro k s pr h
    rw [runSteps_zero] at h
    simp at h
  | succ rem ih =>
    intro k s pr h
    rw [runSteps_succ] at h
    by_cases hc : skip - 1 < k
    · rw [if_pos hc] at h
      rcases List.mem_cons.mp h with hhd | htl
      · rw [hhd]
        exact hstep k s
      · exact ih (k + 1) _ pr htl
    · rw [if_neg hc] at h
      exact ih (k + 1) _ pr h

/-- Unfolding one predator step inside `stateAt`: each iteration multiplies
`pred_a` element-wise by that iteration's predator noise draw. -/
theorem stateAt_pred_a_succ {n m d : ℕ} (cfg : Config n) (ts df : ℚ)
    (inp : ℕ → StepInputs n m d) (s0 : SimState n m d) (k : ℕ) :
    (stateAt cfg ts df inp s0 (k + 1)).pred_a = fun i x =>
      (stateAt cfg ts df inp s0 k).pred_a i x * (inp (k + 1)).ep i x := by
  rw [stateAt_succ, stepIteration_fst_pred_a]

/-- First projection of one unfolding of the run loop. -/
theorem runSteps_succ_fst {n m d : ℕ} (cfg : Config n) (ts df : ℚ)
    (inp : ℕ → StepInputs n m d) (skip k rem : ℕ) (s : SimState n m d) :
    (runSteps cfg ts df inp skip k (rem + 1) s).1 =
      if skip - 1 < k
      then stepIteration cfg ts df (inp k) s ::
        (runSteps cfg ts df inp skip (k + 1) rem
          (stepIteration cfg ts df (inp k) s).1).1
      else (runSteps cfg ts df inp skip (k + 1) rem
        (stepIteration cfg ts df (inp k) s).1).1 := by
  rw [runSteps_succ]

/-- Second projection of one unfolding of the run loop. -/
theorem runSteps_succ_snd {n m d : ℕ} (cfg : Config n) (ts df : ℚ)
    (inp : ℕ → StepInputs n m d) (skip k rem : ℕ) (s : SimState n m d) :
    (runSteps cfg ts df inp skip k (rem + 1) s).2 =
      (runSteps cfg ts df inp skip (k + 1) rem
        (stepIteration cfg ts df (inp k) s).1).2 := by
  rw [runSteps_succ]

/-- The number of recorded states returned by `run`. -/
theorem runEngine_states_length {n m d : ℕ} (cfg : Config n) (ts df : ℚ)
    (inp : ℕ → StepInputs n m d) (iterations skip : ℕ) (retUrg : Bool)
    (s0 : SimState n m d) :
    (runEngine cfg ts df iterations skip retUrg inp s0).states.length =
      (if 0 < skip then 0 else 1) + (1 + iterations - max 1 skip) := by
  show (((if 0 < skip then ([] : List (SimState n m d × Urg3 n d))
      else [(s0, zeroUrg n d)]) ++
      (runSteps cfg ts df inp skip 1 iterations s0).1).map Prod.fst).length = _
  rw [List.length_map, List.length_append,
    runSteps_length cfg ts df inp skip iterations 1 s0 (le_refl 1)]
  by_cases h0 : 0 < skip
  · rw [if_pos h0, if_pos h0]
    simp
  · rw [if_neg h0, if_neg h0]
    simp

/-- When `skip` equals the last iteration index, the run loop records exactly
the final state. -/
theorem runSteps_states_last {n m d : ℕ} (cfg : Config n) (ts df : ℚ)
    (inp : ℕ → StepInputs n m d) (skip : ℕ) :
    ∀ (rem k : ℕ) (s : SimState n m d), 1 ≤ k → k + rem = skip →
      ((runSteps cfg ts df inp skip k (rem + 1) s).1).map Prod.fst =
        [(runSteps cfg ts df inp skip k (rem + 1) s).2] := by
  intro rem
  induction rem with
  | zero =>
    intro k s hk hsum
    have hc : skip - 1 < k := by omega
    have hz := runSteps_zero cfg ts df inp skip (k + 1)
      (stepIteration cfg ts df (inp k) s).1
    rw [runSteps_succ_fst, runSteps_succ_snd, hz, if_pos hc]
    simp
  | succ rem ih =>
    intro k s hk hsum
    have hc : ¬(skip - 1 < k) := by omega
    rw [runSteps_succ_fst, runSteps_succ_snd, if_neg hc]
    exact ih (k + 1) (stepIteration cfg ts df (inp k) s).1 (by omega) (by omega)

/-- Indexing two parallel projections of a pair list: if every pair of the
list satisfies the round-trip relation, so does every index. -/
theorem map_getD_rel {n m d : ℕ} (cfg : Config n) :
    ∀ (l : List (SimState n m d × Urg3 n d)),
      (∀ pr ∈ l, pr.1.a = preNoiseAccel cfg pr.2) →
      ∀ k, k < l.length →
        ((l.map Prod.fst).getD k default).a =
          preNoiseAccel cfg ((l.map Prod.snd).getD k (zeroUrg n d)) := by
  intro l
  induction l with
  | nil =>
    intro _ k hk
    exact absurd hk (by simp)
  | cons hd tl ih =>
    intro hrel k hk
    cases k with
    | zero =>
      rw [List.map_cons, List.map_cons, List.getD_cons_zero, List.getD_cons_zero]
      exact hrel hd (List.mem_cons_self hd tl)
    | succ j =>
      rw [List.map_cons, List.map_cons, List.getD_cons_succ, List.getD_cons_succ]
      refine ih (fun pr hpr => hrel pr (List.mem_cons_of_mem hd hpr)) j ?_
      rw [List.length_cons] at hk
      omega

/-! Claim theorems. -/

/-- Claim C1 fails on the code: a single particle at position 1 — hence with
no other particle at any distance in `(0, d_max]` — receives a nonzero
urgency-1 contribution.  Its all-zero weight row makes the perceived
barycenter the origin, so the particle is pulled toward the origin. -/
theorem urgency1_isolated_cex :
    (∀ j : Fin 1, ¬(0 < zeros1 0 j ∧ zeros1 0 j ≤ cfg1.d_max)) ∧
    calculateUrgency1 cfg1 ones1 zeros1 ones1 0 0 ≠ 0 := by
  constructor
  · decide
  · have hw : ∀ j : Fin 1, u1Weights cfg1.d_max zeros1 0 j = 0 := by
      intro j
      unfold u1Weights
      rw [if_neg]
      rintro ⟨hlt, -⟩
      simp [zeros1] at hlt
    have hval : calculateUrgency1 cfg1 ones1 zeros1 ones1 0 0 = -1 := by
      show ((∑ j, u1Weights cfg1.d_max zeros1 0 j * ones1 j 0) - ones1 0 0) *
          ones1 0 0 * cfg1.u1_p * cfg1.uw 0 0 = -1
      rw [Finset.sum_eq_zero (fun j _ => by rw [hw j, zero_mul])]
      norm_num [ones1, cfg1]
    rw [hval]
    norm_num

/-- Claim C1, amended: for a particle `i` with no other particle at a
distance in `(0, d_max]`, the urgency-1 contribution equals
`(0 - p i) * eps * u1_p * uw[i,0]` — the pull toward the origin produced by
the all-zero weight row — which is zero only when `p i` (or a scale factor)
vanishes. -/
theorem urgency1_isolated {n d : ℕ} (cfg : Config n) (p : Fin n → Fin d → ℚ)
    (dist : Fin n → Fin n → ℚ) (eps : Fin n → Fin d → ℚ) (i : Fin n)
    (h : ∀ j, ¬(0 < dist i j ∧ dist i j ≤ cfg.d_max)) (x : Fin d) :
    calculateUrgency1 cfg p dist eps i x =
      (0 - p i x) * eps i x * cfg.u1_p * cfg.uw i 0 := by
  have hw : ∀ j, u1Weights cfg.d_max dist i j = 0 := by
    intro j
    unfold u1Weights
    rw [if_neg (h j)]
  have hsum : (∑ j, u1Weights cfg.d_max dist i j * p j x) = 0 :=
    Finset.sum_eq_zero fun j _ => by rw [hw j, zero_mul]
  show ((∑ j, u1Weights cfg.d_max dist i j * p j x) - p i x) * eps i x *
      cfg.u1_p * cfg.uw i 0 = _
  rw [hsum]

/-- Witness for the amended claim C1 at a concrete isolated particle. -/
theorem urgency1_isolated_witness :
    calculateUrgency1 cfg1 ones1 zeros1 ones1 0 0 =
      (0 - ones1 0 0) * ones1 0 0 * cfg1.u1_p * cfg1.uw 0 0 :=
  urgency1_isolated cfg1 ones1 zeros1 ones1 0 (by decide) 0

/-- Claim C2 fails on the code: with a predator noise factor of 2 at every
step and baseline `pred_a = 1`, the acceleration used in the 2nd predator
step is `1 * 2 * 2 = 4`, not `baseline * (fresh noise of that step) = 2`:
the in-place `pred_a *= eps` accumulates the perturbations. -/
theorem pred_accel_cex :
    (stateAt cfg1 1 1 (fun _ => predInp1) zeroState1 2).pred_a 0 0 ≠
      zeroState1.pred_a 0 0 * predInp1.ep 0 0 := by
  have hval : (stateAt cfg1 1 1 (fun _ => predInp1) zeroState1 2).pred_a 0 0 = 4 := by
    show (stateAt cfg1 1 1 (fun _ => predInp1) zeroState1 (1 + 1)).pred_a 0 0 = 4
    rw [stateAt_pred_a_succ]
    simp only []
    show (stateAt cfg1 1 1 (fun _ => predInp1) zeroState1 (0 + 1)).pred_a 0 0 *
        predInp1.ep 0 0 = 4
    rw [stateAt_pred_a_succ]
    simp only []
    show zeroState1.pred_a 0 0 * predInp1.ep 0 0 * predInp1.ep 0 0 = 4
    norm_num [zeroState1, ones1, predInp1, twos1]
  rw [hval]
  norm_num [zeroState1, ones1, predInp1, twos1]

/-- Claim C2, amended: the predator acceleration used in the `k`-th predator
step equals the initial `pred_a` multiplied element-wise by the product of
the noise matrices of all steps `1..k` (perturbations accumulate
multiplicatively); consequently, with an identity noise source, `pred_a` is
identical at every step. -/
theorem pred_accel_product {n m d : ℕ} (cfg : Config n) (ts df : ℚ)
    (inp : ℕ → StepInputs n m d) (s0 : SimState n m d) :
    (∀ (k : ℕ) (i : Fin m) (x : Fin d),
      (stateAt cfg ts df inp s0 k).pred_a i x =
        s0.pred_a i x * ∏ j ∈ Finset.Icc 1 k, (inp j).ep i x) ∧
    ((∀ j, (inp j).ep = fun _ _ => 1) →
      ∀ k, (stateAt cfg ts df inp s0 k).pred_a = s0.pred_a) := by
  have main : ∀ (k : ℕ) (i : Fin m) (x : Fin d),
      (stateAt cfg ts df inp s0 k).pred_a i x =
        s0.pred_a i x * ∏ j ∈ Finset.Icc 1 k, (inp j).ep i x := by
    intro k
    induction k with
    | zero =>
      intro i x
      show s0.pred_a i x = _
      rw [show Finset.Icc 1 0 = (∅ : Finset ℕ) from rfl, Finset.prod_empty,
        mul_one]
    | succ k ih =>
      intro i x
      rw [stateAt_pred_a_succ]
      show (stateAt cfg ts df inp s0 k).pred_a i x * (inp (k + 1)).ep i x = _
      rw [ih i x, Finset.prod_Icc_succ_top (by omega : 1 ≤ k + 1), mul_assoc]
  refine ⟨main, fun hid k => ?_⟩
  funext i x
  rw [main k i x]
  have hone : ∏ j ∈ Finset.Icc 1 k, (inp j).ep i x = 1 := by
    apply Finset.prod_eq_one
    intro j _
    rw [hid j]
  rw [hone, mul_one]

/-- Witness for the amended claim C2: with identity predator noise, `pred_a`
after 3 steps equals the baseline. -/
theorem pred_accel_product_witness :
    (stateAt cfg1 1 1 (fun _ => idInp1) zeroState1 3).pred_a =
      zeroState1.pred_a :=
  (pred_accel_product cfg1 1 1 (fun _ => idInp1) zeroState1).2 (fun _ => rfl) 3

/-- Claim C5: engine construction fails iff `p.shape ≠ v.shape` or
`p.shape ≠ a.shape` or `uw.shape ≠ (n, 3)` with `n = p.shape[0]`; the error
reports all four shapes; otherwise construction succeeds (no other
validation). -/
theorem engineInit_spec (pS vS aS uwS : ℕ × ℕ) :
    ((∃ e, engineInit pS vS aS uwS = Except.error e) ↔
      (pS ≠ vS ∨ pS ≠ aS ∨ uwS ≠ (pS.1, 3))) ∧
    (∀ e, engineInit pS vS aS uwS = Except.error e →
      e.pShape = pS ∧ e.vShape = vS ∧ e.aShape = aS ∧ e.uwShape = uwS) ∧
    (¬(pS ≠ vS ∨ pS ≠ aS ∨ uwS ≠ (pS.1, 3)) →
      engineInit pS vS aS uwS = Except.ok ()) := by
  by_cases h : pS ≠ vS ∨ pS ≠ aS ∨ uwS ≠ (pS.1, 3)
  · refine ⟨⟨fun _ => h, fun _ => ⟨⟨pS, vS, aS, uwS⟩, ?_⟩⟩, ?_, fun hn => absurd h hn⟩
    · unfold engineInit
      rw [if_pos h]
    · intro e he
      unfold engineInit at he
      rw [if_pos h] at he
      injection he with he2
      rw [← he2]
      exact ⟨rfl, rfl, rfl, rfl⟩
  · refine ⟨⟨?_, fun hc => absurd hc h⟩, fun e he => ?_, fun _ => ?_⟩
    · rintro ⟨e, he⟩
      unfold engineInit at he
      rw [if_neg h] at he
      exact Except.noConfusion he
    · unfold engineInit at he
      rw [if_neg h] at he
      exact Except.noConfusion he
    · unfold engineInit
      rw [if_neg h]

/-- Witness for claim C5: mismatched shapes fail, matching shapes succeed. -/
theorem engineInit_spec_witness :
    (∃ e, engineInit (1, 2) (3, 4) (1, 2) (1, 3) = Except.error e) ∧
    engineInit (2, 3) (2, 3) (2, 3) (2, 3) = Except.ok () :=
  ⟨(engineInit_spec (1, 2) (3, 4) (1, 2) (1, 3)).1.mpr (by decide),
   (engineInit_spec (2, 3) (2, 3) (2, 3) (2, 3)).2.2 (by decide)⟩

/-- Claim C6: in every particle step the acceleration is clipped to
`[-a_max, a_max]` before the noise matrix is applied: the pre-noise clipped
component is at most `a_max` in absolute value, the stored acceleration is
exactly the pre-noise value times the drawn noise factor, and hence exceeds
`a_max` at most by that factor. -/
theorem accel_clipped_before_noise {n m d : ℕ} (cfg : Config n) (ts df : ℚ)
    (dists : Fin n → Fin n → ℚ) (dpred : Fin n → Fin m → ℚ)
    (e1 e2 e3 ea : Fin n → Fin d → ℚ) (s : SimState n m d)
    (ha : 0 ≤ cfg.a_max) (i : Fin n) (x : Fin d) :
    |preNoiseAccel cfg (stepParticles cfg ts df dists dpred e1 e2 e3 ea s).2 i x| ≤
      cfg.a_max ∧
    (stepParticles cfg ts df dists dpred e1 e2 e3 ea s).1.a i x =
      preNoiseAccel cfg (stepParticles cfg ts df dists dpred e1 e2 e3 ea s).2 i x *
        ea i x ∧
    |(stepParticles cfg ts df dists dpred e1 e2 e3 ea s).1.a i x| ≤
      cfg.a_max * |ea i x| := by
  refine ⟨abs_clipByAbs_le _ _ ha, rfl, ?_⟩
  have h2 : (stepParticles cfg ts df dists dpred e1 e2 e3 ea s).1.a i x =
      preNoiseAccel cfg (stepParticles cfg ts df dists dpred e1 e2 e3 ea s).2 i x *
        ea i x := rfl
  rw [h2, abs_mul]
  exact mul_le_mul_of_nonneg_right (abs_clipByAbs_le _ _ ha) (abs_nonneg _)

/-- Witness for claim C6 at a concrete one-particle step. -/
theorem accel_clipped_before_noise_witness :
    (0 : ℚ) ≤ cfg1.a_max ∧
    (|preNoiseAccel cfg1 (stepParticles cfg1 1 1 zeros1 zeros1 ones1 ones1 ones1 ones1 zeroState1).2 0 0| ≤
      cfg1.a_max ∧
    (stepParticles cfg1 1 1 zeros1 zeros1 ones1 ones1 ones1 ones1 zeroState1).1.a 0 0 =
      preNoiseAccel cfg1 (stepParticles cfg1 1 1 zeros1 zeros1 ones1 ones1 ones1 ones1 zeroState1).2 0 0 *
        ones1 0 0 ∧
    |(stepParticles cfg1 1 1 zeros1 zeros1 ones1 ones1 ones1 ones1 zeroState1).1.a 0 0| ≤
      cfg1.a_max * |ones1 0 0|) :=
  ⟨by decide,
   accel_clipped_before_noise cfg1 1 1 zeros1 zeros1 ones1 ones1 ones1 ones1
     zeroState1 (by decide) 0 0⟩

/-- Claim C7: after every particle step, every component of the velocity
matrix has absolute value at most `v_max`, for every prior state, config,
distance matrix and noise draw. -/
theorem velocity_clipped {n m d : ℕ} (cfg : Config n) (ts df : ℚ)
    (dists : Fin n → Fin n → ℚ) (dpred : Fin n → Fin m → ℚ)
    (e1 e2 e3 ea : Fin n → Fin d → ℚ) (s : SimState n m d)
    (hv : 0 ≤ cfg.v_max) (i : Fin n) (x : Fin d) :
    |(stepParticles cfg ts df dists dpred e1 e2 e3 ea s).1.v i x| ≤ cfg.v_max :=
  abs_clipByAbs_le _ _ hv

/-- Witness for claim C7 at a concrete one-particle step. -/
theorem velocity_clipped_witness :
    (0 : ℚ) ≤ cfg1.v_max ∧
    |(stepParticles cfg1 1 1 zeros1 zeros1 ones1 ones1 ones1 ones1 zeroState1).1.v 0 0| ≤
      cfg1.v_max :=
  ⟨by decide,
   velocity_clipped cfg1 1 1 zeros1 zeros1 ones1 ones1 ones1 ones1 zeroState1
     (by decide) 0 0⟩

/-- Claim C8: in all three urgency computations a pair at distance exactly 0
(self-terms and collocated pairs) is excluded by the `distance > 0` mask and
contributes weight exactly 0, so the guarded weight division is never
evaluated at a zero distance. -/
theorem zero_distance_zero_weight {n m : ℕ} (d_max u2_dopt u3_dmax : ℚ)
    (dist : Fin n → Fin n → ℚ) (dpred : Fin n → Fin m → ℚ)
    (i j : Fin n) (k : Fin m) (h1 : dist i j = 0) (h2 : dpred i k = 0) :
    u1Weights d_max dist i j = 0 ∧ u2Weights u2_dopt dist i j = 0 ∧
    u3Weights u3_dmax dpred i k = 0 := by
  have hn1 : ¬(0 < dist i j ∧ dist i j ≤ d_max) := by
    rintro ⟨hlt, -⟩
    rw [h1] at hlt
    exact lt_irrefl 0 hlt
  have hn2 : ¬(0 < dist i j ∧ dist i j ≤ u2_dopt) := by
    rintro ⟨hlt, -⟩
    rw [h1] at hlt
    exact lt_irrefl 0 hlt
  have hn3 : ¬(0 < dpred i k ∧ dpred i k ≤ u3_dmax) := by
    rintro ⟨hlt, -⟩
    rw [h2] at hlt
    exact lt_irrefl 0 hlt
  refine ⟨?_, ?_, ?_⟩
  · unfold u1Weights
    rw [if_neg hn1]
  · unfold u2Weights
    rw [if_neg hn2]
  · unfold u3Weights
    rw [if_neg hn3]

/-- Witness for claim C8 at a concrete zero-distance pair. -/
theorem zero_distance_zero_weight_witness :
    zeros1 0 0 = 0 ∧ zeros1 0 0 = 0 ∧
    (u1Weights 1 zeros1 0 0 = 0 ∧ u2Weights 1 zeros1 0 0 = 0 ∧
     u3Weights 1 zeros1 0 0 = 0) :=
  ⟨rfl, rfl, zero_distance_zero_weight 1 1 1 zeros1 zeros1 0 0 0 rfl rfl⟩

/-- Claim C9: a particle with no other particle at a distance in
`(0, u2_dopt]` gets an exactly-zero urgency-2 contribution, and a particle
with no predator at a distance in `(0, u3_dmax]` gets an exactly-zero
urgency-3 contribution. -/
theorem urgency23_out_of_range_zero {n m d : ℕ} (cfg : Config n)
    (p : Fin n → Fin d → ℚ) (pred_p : Fin m → Fin d → ℚ)
    (dist : Fin n → Fin n → ℚ) (dpred : Fin n → Fin m → ℚ)
    (e2 e3 : Fin n → Fin d → ℚ) (i : Fin n)
    (h2 : ∀ j, ¬(0 < dist i j ∧ dist i j ≤ cfg.u2_dopt))
    (h3 : ∀ k, ¬(0 < dpred i k ∧ dpred i k ≤ cfg.u3_dmax)) (x : Fin d) :
    calculateUrgency2 cfg p dist e2 i x = 0 ∧
    calculateUrgency3 cfg p pred_p dpred e3 i x = 0 := by
  constructor
  · have hw : ∀ j, u2Weights cfg.u2_dopt dist i j = 0 := by
      intro j
      unfold u2Weights
      rw [if_neg (h2 j)]
    have hsum : (∑ j, u2Weights cfg.u2_dopt dist i j * (p i x - p j x)) = 0 :=
      Finset.sum_eq_zero fun j _ => by rw [hw j, zero_mul]
    show (∑ j, u2Weights cfg.u2_dopt dist i j * (p i x - p j x)) * e2 i x *
        cfg.u2_p * cfg.uw i 1 = 0
    rw [hsum, zero_mul, zero_mul, zero_mul]
  · have hw : ∀ k, u3Weights cfg.u3_dmax dpred i k = 0 := by
      intro k
      unfold u3Weights
      rw [if_neg (h3 k)]
    have hsum : (∑ k, u3Weights cfg.u3_dmax dpred i k * (p i x - pred_p k x)) = 0 :=
      Finset.sum_eq_zero fun k _ => by rw [hw k, zero_mul]
    show (∑ k, u3Weights cfg.u3_dmax dpred i k * (p i x - pred_p k x)) * e3 i x *
        cfg.u3_p * cfg.uw i 2 = 0
    rw [hsum, zero_mul, zero_mul, zero_mul]

/-- Witness for claim C9 at a concrete out-of-range configuration. -/
theorem urgency23_out_of_range_zero_witness :
    (∀ j : Fin 1, ¬(0 < zeros1 0 j ∧ zeros1 0 j ≤ cfg1.u2_dopt)) ∧
    (∀ k : Fin 1, ¬(0 < zeros1 0 k ∧ zeros1 0 k ≤ cfg1.u3_dmax)) ∧
    (calculateUrgency2 cfg1 ones1 zeros1 ones1 0 0 = 0 ∧
     calculateUrgency3 cfg1 ones1 zeros1 zeros1 ones1 0 0 = 0) :=
  ⟨by decide, by decide,
   urgency23_out_of_range_zero cfg1 ones1 zeros1 zeros1 zeros1 ones1 ones1 0
     (by decide) (by decide) 0⟩

/-- Claim C3: for `skip_initial_states ≤ iterations`, `run` returns
`iterations + 1` recorded states when `skip_initial_states = 0` and
`iterations - skip_initial_states + 1` otherwise; in particular
`run(iterations := 5, skip_initial_states := 5)` records exactly the single
state reached after the 5th step (never the initial state). -/
theorem run_states_length {n m d : ℕ} (cfg : Config n) (ts df : ℚ)
    (inp : ℕ → StepInputs n m d) (retUrg : Bool) (s0 : SimState n m d)
    (iterations skip : ℕ) (hs : skip ≤ iterations) :
    ((runEngine cfg ts df iterations skip retUrg inp s0).states.length =
      if skip = 0 then iterations + 1 else iterations - skip + 1) ∧
    (runEngine cfg ts df 5 5 retUrg inp s0).states =
      [stateAt cfg ts df inp s0 5] := by
  constructor
  · rw [runEngine_states_length]
    by_cases h0 : skip = 0
    · subst h0
      rw [if_pos rfl, if_neg (lt_irrefl 0), Nat.max_eq_left (Nat.zero_le 1)]
      omega
    · rw [if_neg h0, if_pos (by omega : 0 < skip),
        Nat.max_eq_right (by omega : 1 ≤ skip)]
      omega
  · have hrec := runSteps_states_last cfg ts df inp 5 4 1 s0 (le_refl 1)
      (by norm_num)
    have h45 : (4 : ℕ) + 1 = 5 := by norm_num
    rw [h45] at hrec
    show ((if 0 < 5 then ([] : List (SimState n m d × Urg3 n d))
        else [(s0, zeroUrg n d)]) ++
        (runSteps cfg ts df inp 5 1 5 s0).1).map Prod.fst = _
    rw [if_pos (by norm_num : (0 : ℕ) < 5), List.nil_append, hrec]
    show [finalState cfg ts df inp 5 5 s0] = _
    rw [finalState_eq_stateAt]

/-- Witness for claim C3 at a concrete run (`iterations = 1`, `skip = 0`). -/
theorem run_states_length_witness :
    ((runEngine cfg1 1 1 1 0 true (fun _ => idInp1) zeroState1).states.length =
      if (0 : ℕ) = 0 then 1 + 1 else 1 - 0 + 1) ∧
    (runEngine cfg1 1 1 5 5 true (fun _ => idInp1) zeroState1).states =
      [stateAt cfg1 1 1 (fun _ => idInp1) zeroState1 5] :=
  run_states_length cfg1 1 1 (fun _ => idInp1) true zeroState1 1 0 (by omega)

/-- Claim C4: with `return_urgency_vectors = true` and an identity noise
source, for every recorded index `k ≥ 1` the element-wise sum of the three
recorded urgency matrices at `k`, multiplied by `a_max / u_max` and clipped
to `[-a_max, a_max]`, equals the acceleration matrix stored in the `k`-th
recorded state. -/
theorem urgency_accel_roundtrip {n m d : ℕ} (cfg : Config n) (ts df : ℚ)
    (iterations skip : ℕ) (inp : ℕ → StepInputs n m d) (s0 : SimState n m d)
    (hid : ∀ j, identityNoise (inp j)) (k : ℕ) (hk1 : 1 ≤ k)
    (hks : k < (runEngine cfg ts df iterations skip true inp s0).states.length) :
    ((runEngine cfg ts df iterations skip true inp s0).states.getD k default).a =
      fun i x => clipByAbs
        (((((runEngine cfg ts df iterations skip true inp s0).urgencies.getD
              []).getD k (zeroUrg n d)).1 i x +
          ((((runEngine cfg ts df iterations skip true inp s0).urgencies.getD
              []).getD k (zeroUrg n d)).2.1 i x) +
          ((((runEngine cfg ts df iterations skip true inp s0).urgencies.getD
              []).getD k (zeroUrg n d)).2.2 i x)) *
          (cfg.a_max / cfg.u_max)) cfg.a_max := by
  have hstates : (runEngine cfg ts df iterations skip true inp s0).states =
      ((if 0 < skip then ([] : List (SimState n m d × Urg3 n d))
        else [(s0, zeroUrg n d)]) ++
        (runSteps cfg ts df inp skip 1 iterations s0).1).map Prod.fst := rfl
  have hurg : (runEngine cfg ts df iterations skip true inp s0).urgencies =
      some (((if 0 < skip then ([] : List (SimState n m d × Urg3 n d))
        else [(s0, zeroUrg n d)]) ++
        (runSteps cfg ts df inp skip 1 iterations s0).1).map Prod.snd) := rfl
  rw [hstates, List.length_map] at hks
  rw [hstates, hurg, Option.getD_some]
  have hrel := runSteps_accel_rel cfg ts df inp skip hid iterations 1 s0
  have hgoal : ∀ (U : Urg3 n d), preNoiseAccel cfg U =
      fun i x => clipByAbs
        ((U.1 i x + U.2.1 i x + U.2.2 i x) * (cfg.a_max / cfg.u_max))
        cfg.a_max := by
    intro U
    funext i x
    show clipByAbs ((U.1 i x + U.2.1 i x + U.2.2 i x) / cfg.u_max * cfg.a_max)
      cfg.a_max = _
    rw [div_mul_eq_mul_div, mul_div_assoc]
  by_cases h0 : 0 < skip
  · rw [if_pos h0, List.nil_append] at hks ⊢
    rw [map_getD_rel cfg _ hrel k hks]
    exact hgoal _
  · rw [if_neg h0, List.singleton_append] at hks ⊢
    obtain ⟨j, rfl⟩ : ∃ j, k = j + 1 := ⟨k - 1, by omega⟩
    rw [List.length_cons] at hks
    rw [List.map_cons, List.map_cons, List.getD_cons_succ, List.getD_cons_succ]
    rw [map_getD_rel cfg _ hrel j (by omega)]
    exact hgoal _

/-- Witness for claim C4 at a concrete identity-noise run. -/
theorem urgency_accel_roundtrip_witness :
    (∀ j : ℕ, identityNoise ((fun _ => idInp1) j)) ∧ 1 ≤ 1 ∧
    1 < (runEngine cfg1 1 1 1 0 true (fun _ => idInp1) zeroState1).states.length ∧
    ((runEngine cfg1 1 1 1 0 true (fun _ => idInp1) zeroState1).states.getD 1
        default).a =
      fun i x => clipByAbs
        (((((runEngine cfg1 1 1 1 0 true (fun _ => idInp1) zeroState1).urgencies.getD
              []).getD 1 (zeroUrg 1 1)).1 i x +
          ((((runEngine cfg1 1 1 1 0 true (fun _ => idInp1) zeroState1).urgencies.getD
              []).getD 1 (zeroUrg 1 1)).2.1 i x) +
          ((((runEngine cfg1 1 1 1 0 true (fun _ => idInp1) zeroState1).urgencies.getD
              []).getD 1 (zeroUrg 1 1)).2.2 i x)) *
          (cfg1.a_max / cfg1.u_max)) cfg1.a_max :=
  ⟨fun _ => ⟨rfl, rfl, rfl, rfl, rfl⟩, le_refl 1, by decide,
   urgency_accel_roundtrip cfg1 1 1 1 0 (fun _ => idInp1) zeroState1
     (fun _ => ⟨rfl, rfl, rfl, rfl, rfl⟩) 1 (le_refl 1) (by decide)⟩

/-- Claim C10: `run` does not validate `skip_initial_states ≤ iterations`:
when `skip_initial_states > iterations` it raises no error, returns an empty
states list (and, when requested, an empty urgencies list), and still
performs exactly `iterations` steps on the engine state. -/
theorem run_skip_gt_iterations {n m d : ℕ} (cfg : Config n) (ts df : ℚ)
    (inp : ℕ → StepInputs n m d) (s0 : SimState n m d)
    (iterations skip : ℕ) (retUrg : Bool) (h : iterations < skip) :
    (runEngine cfg ts df iterations skip retUrg inp s0).states = [] ∧
    (runEngine cfg ts df iterations skip true inp s0).urgencies = some [] ∧
    finalState cfg ts df inp skip iterations s0 =
      stateAt cfg ts df inp s0 iterations := by
  have hpos : 0 < skip := by omega
  have hrecl : ((runSteps cfg ts df inp skip 1 iterations s0).1).length = 0 := by
    rw [runSteps_length cfg ts df inp skip iterations 1 s0 (le_refl 1),
      Nat.max_eq_right (by omega : 1 ≤ skip)]
    omega
  have hrec : (runSteps cfg ts df inp skip 1 iterations s0).1 = [] :=
    List.length_eq_zero.mp hrecl
  refine ⟨?_, ?_, finalState_eq_stateAt cfg ts df inp skip s0 iterations⟩
  · show ((if 0 < skip then ([] : List (SimState n m d × Urg3 n d))
      else [(s0, zeroUrg n d)]) ++
      (runSteps cfg ts df inp skip 1 iterations s0).1).map Prod.fst = []
    rw [if_pos hpos, List.nil_append, hrec]
    rfl
  · show some (((if 0 < skip then ([] : List (SimState n m d × Urg3 n d))
      else [(s0, zeroUrg n d)]) ++
      (runSteps cfg ts df inp skip 1 iterations s0).1).map Prod.snd) = some []
    rw [if_pos hpos, List.nil_append, hrec]
    rfl

/-- Witness for claim C10 at `iterations = 1`, `skip_initial_states = 2`. -/
theorem run_skip_gt_iterations_witness :
    1 < 2 ∧
    ((runEngine cfg1 1 1 1 2 true (fun _ => idInp1) zeroState1).states = [] ∧
     (runEngine cfg1 1 1 1 2 true (fun _ => idInp1) zeroState1).urgencies =
       some [] ∧
     finalState cfg1 1 1 (fun _ => idInp1) 2 1 zeroState1 =
       stateAt cfg1 1 1 (fun _ => idInp1) zeroState1 1) :=
  ⟨by omega,
   run_skip_gt_iterations cfg1 1 1 (fun _ => idInp1) zeroState1 1 2 true
     (by omega)⟩

end PSim
